import Mathlib

/-!
# PDF-INSIGHT persistence subsystem — shallow embedding and verification

This file embeds, in Lean 4, the metadata/content persistence subsystem of
the PDF-INSIGHT repository and settles the specification claims about it.

Two backends are embedded:

* the **Flat Store** (`src/metadata_storage.py`, class `MetadataStorage`):
  a JSON file holding one mapping from filename to a metadata dictionary,
  with a startup migration from a legacy array-of-single-entry-mappings
  format;
* the **Relational Store** (`src/database.py`, class `Database`): an SQLite
  database with tables `pdf_documents`, `images` and `texts`.

Modelling conventions:

* Python dictionaries are insertion-ordered association lists
  (`List (String × JValue)`); `d[k] = v` updates an existing key in place
  (keeping its position) or appends, exactly as CPython does.
* JSON file content is `Option JValue`; `none` stands for content on which
  `json.load` raises `JSONDecodeError`.
* SQLite is embedded as it actually runs in this program: the code never
  executes `PRAGMA foreign_keys = ON`, so foreign-key constraints and the
  declared `ON DELETE CASCADE` actions are **not** enforced — `DELETE FROM
  pdf_documents` removes only document rows, and `INSERT INTO images`
  succeeds for any `pdf_id`.  Row ids follow `AUTOINCREMENT` (never reused).
* Timestamps (`datetime.now().isoformat()`) are abstracted as `Nat` values
  supplied by the caller; ISO strings compare like the underlying instants.
* Exception control flow is made explicit: operations that catch an
  exception and return a sentinel are total functions returning that
  sentinel; write failures of the backing resource are a boolean parameter
  (`saveOk` / `commitOk`) standing for whether the file write / `commit`
  raises.
-/

/-- JSON-like values, the payloads held by the Flat Store
(`metadata_storage.py`).  An `obj` is a CPython insertion-ordered dict. -/
inductive JValue where
  | obj (entries : List (String × JValue)) : JValue
  | arr (items : List JValue) : JValue
  | str (s : String) : JValue
  | num (n : Int) : JValue
  | bool (b : Bool) : JValue
  | null : JValue
deriving Repr

/-- A Python dict keyed by strings, as the Flat Store uses it. -/
abbrev JDict := List (String × JValue)

/-- CPython `d[k] = v`: replace the value of an existing key in place
(keeping its position), otherwise append the new key at the end. -/
def dictInsert (d : JDict) (k : String) (v : JValue) : JDict :=
  if (d.lookup k).isSome then
    d.map (fun kv => if kv.1 = k then (k, v) else kv)
  else
    d ++ [(k, v)]

/-- CPython `del d[k]` / `filename in d` helpers: remove every entry with
key `k` (there is at most one in a real dict). -/
def dictErase (d : JDict) (k : String) : JDict :=
  d.filter (fun kv => kv.1 ≠ k)

namespace MetadataStorage

/-- `MetadataStorage._migrate_from_array` (metadata_storage.py:74-96):
iterate the legacy array in order; for each element that is a mapping,
merge each `(filename, metadata)` entry into the accumulator dict — a
repeated filename overwrites the earlier value (later occurrence wins). -/
def migrate_from_array (array_data : List JValue) : JDict :=
  array_data.foldl
    (fun migrated item =>
      match item with
      | JValue.obj entries =>
          entries.foldl (fun acc kv => dictInsert acc kv.1 kv.2) migrated
      | _ => migrated)
    []

/-- `MetadataStorage._load_data` (metadata_storage.py:33-58).  Input is the
parsed on-disk content (`none` = `json.JSONDecodeError`).  Returns the
dictionary handed to the caller together with the on-disk content after
the call (migration persists the merged mapping back via `_save_data`);
every failure path is caught inside the method and yields `{}`. -/
def load_data (disk : Option JValue) : JDict × Option JValue :=
  match disk with
  | none => ([], none)
  | some (JValue.arr items) =>
      let migrated := migrate_from_array items
      (migrated, some (JValue.obj migrated))
  | some (JValue.obj entries) => (entries, some (JValue.obj entries))
  | some other => ([], some other)

/-- `MetadataStorage.file_exists` (metadata_storage.py:98-109). -/
def file_exists (disk : Option JValue) (filename : String) : Bool :=
  (((load_data disk).1).lookup filename).isSome

/-- `MetadataStorage.get_metadata` (metadata_storage.py:141-152). -/
def get_metadata (disk : Option JValue) (filename : String) : Option JValue :=
  ((load_data disk).1).lookup filename

/-- `MetadataStorage.get_count` (metadata_storage.py:199-207). -/
def get_count (disk : Option JValue) : Nat :=
  ((load_data disk).1).length

/-- `MetadataStorage._save_data` (metadata_storage.py:60-72): writes the
dict as the new file content; an `Exception` while writing is caught and
only logged, leaving the previous content (`saveOk = false` branch). -/
def save_data (disk : Option JValue) (data : JDict) (saveOk : Bool) :
    Option JValue :=
  if saveOk then some (JValue.obj data) else disk

/-- Result of `MetadataStorage.add_metadata`: the return value, the on-disk
content after the call, and the value of the caller's `metadata` argument
after the call (the method assigns `metadata['processed_at']` on the
caller's own dict before storing that same object). -/
structure AddMetadataResult where
  ret : Bool
  disk : Option JValue
  callerMetadata : JDict
deriving Repr

/-- `MetadataStorage.add_metadata` (metadata_storage.py:111-139): load,
stamp `processed_at` onto the caller's dict in place, store that dict under
`filename`, save.  No statement in the `try` block raises (`_load_data` and
`_save_data` swallow their own exceptions), so the method returns `True`
unconditionally. -/
def add_metadata (disk : Option JValue) (filename : String)
    (metadata : JDict) (now : String) (saveOk : Bool) : AddMetadataResult :=
  let data := (load_data disk).1
  let diskAfterLoad := (load_data disk).2
  let metadata' := dictInsert metadata "processed_at" (JValue.str now)
  let data' := dictInsert data filename (JValue.obj metadata')
  { ret := true
    disk := save_data diskAfterLoad data' saveOk
    callerMetadata := metadata' }

end MetadataStorage

/-- The `metadata` argument of `Database.add_pdf_document`: the fields
that the method reads with `metadata.get(...)` (absent keys yield `None`).
`filename` is passed separately and the method never reads or writes
`file_hash`. -/
structure PdfMetadata where
  title : Option String := none
  author : Option String := none
  subject : Option String := none
  creator : Option String := none
  producer : Option String := none
  creation_date : Option String := none
  modification_date : Option String := none
  num_pages : Option Int := none
  total_words : Option Int := none
  total_images : Option Int := none
  total_attachments : Option Int := none
deriving Repr, DecidableEq

/-- One row of the `pdf_documents` table (database.py:39-57). -/
structure DocRow where
  id : Nat
  filename : String
  title : Option String := none
  author : Option String := none
  subject : Option String := none
  creator : Option String := none
  producer : Option String := none
  creation_date : Option String := none
  modification_date : Option String := none
  num_pages : Option Int := none
  total_words : Option Int := none
  total_images : Option Int := none
  total_attachments : Option Int := none
  processed_at : Nat
  file_hash : Option String := none
deriving Repr, DecidableEq

/-- One row of the `images` table (database.py:60-71). -/
structure ImageRow where
  id : Nat
  pdf_id : Nat
  filename : String
  page_number : Int
  image_index : Int
  file_extension : Option String := none
  extracted_at : Nat
deriving Repr, DecidableEq

/-- One row of the `texts` table (database.py:74-83). -/
structure TextRow where
  id : Nat
  pdf_id : Nat
  filename : String
  word_count : Option Int := none
  extracted_at : Nat
deriving Repr, DecidableEq

/-- The SQLite database state: each table in rowid order, plus the
`AUTOINCREMENT` counters (SQLite never reuses an `AUTOINCREMENT` id, even
after deletes). -/
structure DbState where
  docs : List DocRow := []
  images : List ImageRow := []
  texts : List TextRow := []
  nextDocId : Nat := 1
  nextImageId : Nat := 1
  nextTextId : Nat := 1
deriving Repr, DecidableEq

namespace Database

/-- `SELECT id FROM pdf_documents WHERE filename = ?` followed by
`fetchone()`: the first matching row in table order, if any. -/
def findDocByFilename (s : DbState) (filename : String) : Option DocRow :=
  s.docs.find? (fun row => row.filename = filename)

/-- `Database.pdf_exists` (database.py:113-131). -/
def pdf_exists (s : DbState) (filename : String) : Bool :=
  (findDocByFilename s filename).isSome

/-- The field-level `UPDATE` of an existing `pdf_documents` row performed
by the update branch of `add_pdf_document` (database.py:157-178): every
metadata column and `processed_at` are overwritten; `id`, `filename` and
`file_hash` are untouched. -/
def updateDocRow (row : DocRow) (metadata : PdfMetadata) (now : Nat) :
    DocRow :=
  { row with
    title := metadata.title
    author := metadata.author
    subject := metadata.subject
    creator := metadata.creator
    producer := metadata.producer
    creation_date := metadata.creation_date
    modification_date := metadata.modification_date
    num_pages := metadata.num_pages
    total_words := metadata.total_words
    total_images := metadata.total_images
    total_attachments := metadata.total_attachments
    processed_at := now }

/-- The fresh `pdf_documents` row built by the insert branch of
`add_pdf_document` (database.py:182-203). -/
def newDocRow (id : Nat) (filename : String) (metadata : PdfMetadata)
    (now : Nat) : DocRow :=
  { id := id
    filename := filename
    title := metadata.title
    author := metadata.author
    subject := metadata.subject
    creator := metadata.creator
    producer := metadata.producer
    creation_date := metadata.creation_date
    modification_date := metadata.modification_date
    num_pages := metadata.num_pages
    total_words := metadata.total_words
    total_images := metadata.total_images
    total_attachments := metadata.total_attachments
    processed_at := now
    file_hash := none }

/-- `Database.add_pdf_document` (database.py:133-214): select by filename;
if a row exists, `UPDATE` it in place and return its id, else `INSERT` a
new row and return `cursor.lastrowid`.  `commitOk = false` stands for an
exception raised by the underlying storage during the transaction: the
`except` clause rolls the transaction back and the method returns `None`
(it raises nothing to its caller). -/
def add_pdf_document (s : DbState) (filename : String)
    (metadata : PdfMetadata) (now : Nat) (commitOk : Bool) :
    Option Nat × DbState :=
  if !commitOk then
    (none, s)
  else
    match findDocByFilename s filename with
    | some existing =>
        (some existing.id,
         { s with
           docs := s.docs.map (fun row =>
             if row.id = existing.id then updateDocRow row metadata now
             else row) })
    | none =>
        (some s.nextDocId,
         { s with
           docs := s.docs ++ [newDocRow s.nextDocId filename metadata now]
           nextDocId := s.nextDocId + 1 })

/-- `Database.add_image` (database.py:216-252): a plain `INSERT INTO
images`.  The program never enables `PRAGMA foreign_keys`, so SQLite does
not check that `pdf_id` references a live document row — the insert
succeeds for any `pdf_id` and the new image id is returned. -/
def add_image (s : DbState) (pdf_id : Nat) (filename : String)
    (page_number : Int) (image_index : Int) (file_extension : Option String)
    (now : Nat) : Option Nat × DbState :=
  (some s.nextImageId,
   { s with
     images := s.images ++
       [{ id := s.nextImageId
          pdf_id := pdf_id
          filename := filename
          page_number := page_number
          image_index := image_index
          file_extension := file_extension
          extracted_at := now }]
     nextImageId := s.nextImageId + 1 })

/-- `Database.add_text` (database.py:254-287): a plain `INSERT INTO texts`;
no prior row for the same `pdf_id` is deleted or replaced. -/
def add_text (s : DbState) (pdf_id : Nat) (filename : String)
    (word_count : Option Int) (now : Nat) : Option Nat × DbState :=
  (some s.nextTextId,
   { s with
     texts := s.texts ++
       [{ id := s.nextTextId
          pdf_id := pdf_id
          filename := filename
          word_count := word_count
          extracted_at := now }]
     nextTextId := s.nextTextId + 1 })

/-- `Database.get_pdf_by_filename` (database.py:289-312). -/
def get_pdf_by_filename (s : DbState) (filename : String) : Option DocRow :=
  findDocByFilename s filename

/-- `Database.get_images_by_pdf_id` (database.py:314-335): `SELECT * FROM
images WHERE pdf_id = ?`, all matching rows in table order. -/
def get_images_by_pdf_id (s : DbState) (pdf_id : Nat) : List ImageRow :=
  s.images.filter (fun row => row.pdf_id = pdf_id)

/-- `Database.get_text_by_pdf_id` (database.py:337-360): same `WHERE`
clause but `fetchone()` — the first matching row only. -/
def get_text_by_pdf_id (s : DbState) (pdf_id : Nat) : Option TextRow :=
  (s.texts.filter (fun row => row.pdf_id = pdf_id)).head?

/-- The comparator of `ORDER BY processed_at DESC`: later timestamps come
first.  The query names no second sort key, so rows sharing a timestamp
carry no mandated order; the embedding realises the query as a stable sort,
keeping table order among ties (one of the orders SQL permits). -/
def processedAtDesc (a b : DocRow) : Prop :=
  b.processed_at ≤ a.processed_at

instance : DecidableRel processedAtDesc := fun a b =>
  inferInstanceAs (Decidable (b.processed_at ≤ a.processed_at))

/-- `Database.get_all_pdfs` (database.py:362-380): `SELECT * FROM
pdf_documents ORDER BY processed_at DESC`. -/
def get_all_pdfs (s : DbState) : List DocRow :=
  s.docs.insertionSort processedAtDesc

/-- `Database.get_pdf_count` (database.py:382-396). -/
def get_pdf_count (s : DbState) : Nat :=
  s.docs.length

/-- `Database.delete_pdf` (database.py:398-428): `DELETE FROM
pdf_documents WHERE filename = ?`; returns `cursor.rowcount > 0`.  With
`PRAGMA foreign_keys` never enabled, the `ON DELETE CASCADE` clauses of
the `images`/`texts` schemas are inert: only document rows are removed. -/
def delete_pdf (s : DbState) (filename : String) : Bool × DbState :=
  let remaining := s.docs.filter (fun row => row.filename ≠ filename)
  (remaining.length ≠ s.docs.length, { s with docs := remaining })

end Database

/-- A nibble rendered as a lowercase hexadecimal character: values below
ten map to `'0'`-`'9'` (codepoints from 48), the rest to `'a'`-`'f'`
(codepoints from 97). -/
def hexDigit (n : Fin 16) : Char :=
  if n.1 < 10 then Char.ofNat (48 + n.1) else Char.ofNat (87 + n.1)

/-- Whether a character is one of the sixteen lowercase hexadecimal
digits. -/
def isLowerHexChar (c : Char) : Bool :=
  (48 ≤ c.toNat && c.toNat ≤ 57) || (97 ≤ c.toNat && c.toNat ≤ 102)

/-- One random byte rendered as two lowercase hexadecimal characters, as
`secrets.token_hex` renders each byte of `os.urandom`. -/
def byteToHexChars (b : Fin 256) : List Char :=
  [hexDigit ⟨b.1 / 16, by omega⟩, hexDigit ⟨b.1 % 16, by omega⟩]

/-- `secrets.token_hex(nbytes)`: draw `nbytes` bytes from the random
source (modelled as a stream `rnd`) and render each as two lowercase hex
characters. -/
def token_hex (rnd : Nat → Fin 256) (nbytes : Nat) : String :=
  ⟨(List.range nbytes).flatMap (fun i => byteToHexChars (rnd i))⟩

/-- `Database.generate_hex_id` (database.py:100-111):
`secrets.token_hex(length // 2)` — Python floor division. -/
def generate_hex_id (rnd : Nat → Fin 256) (length : Nat := 8) : String :=
  token_hex rnd (length / 2)

/-- `processedAtDesc` is total (`≤` on `Nat` is). -/
instance : IsTotal DocRow Database.processedAtDesc :=
  ⟨fun a b => (le_total b.processed_at a.processed_at).elim Or.inl Or.inr⟩

/-- `processedAtDesc` is transitive. -/
instance : IsTrans DocRow Database.processedAtDesc :=
  ⟨fun _ _ _ hab hbc => le_trans hbc hab⟩

/-! ## Concrete scenario states

States built by running the embedded operations on concrete inputs; used
to evaluate the code where a claim and the code part ways. -/

/-- One document `"doc.pdf"` (id 1) with one attached image reference and
one attached text reference. -/
def docWithRefs : DbState :=
  (Database.add_text
    ((Database.add_image
      ((Database.add_pdf_document {} "doc.pdf" {} 1 true).2)
      1 "img.png" 1 0 (some "png") 1).2)
    1 "doc.txt" (some 10) 1).2

/-- `docWithRefs` scenario continued: the same filename re-upserted and a
second image reference attached (N = 1 old, M = 1 new). -/
def docReprocessed : DbState :=
  (Database.add_image
    ((Database.add_pdf_document docWithRefs "doc.pdf" {} 2 true).2)
    1 "new.png" 1 0 (some "png") 2).2

/-- Two documents upserted in the order `"b.pdf"`, `"a.pdf"`, both with
the same `processed_at` timestamp. -/
def twoDocsSameStamp : DbState :=
  (Database.add_pdf_document
    ((Database.add_pdf_document {} "b.pdf" {} 5 true).2)
    "a.pdf" {} 5 true).2

/-! ## Helper lemmas -/

theorem lookup_map_replace (d : JDict) (k : String) (v : JValue)
    (h : (d.lookup k).isSome) :
    (d.map (fun kv => if kv.1 = k then (k, v) else kv)).lookup k = some v := by
  induction d with
  | nil => simp at h
  | cons hd tl ih =>
    by_cases hk : hd.1 = k
    · rw [List.map_cons, if_pos hk]
      simp [List.lookup]
    · have hbeq : (k == hd.1) = false := by
        simp only [beq_eq_false_iff_ne, ne_eq]
        exact fun h => hk h.symm
      rw [List.map_cons, if_neg hk]
      simp only [List.lookup, hbeq]
      apply ih
      simpa [List.lookup, hbeq] using h

theorem lookup_append_single (d : JDict) (k : String) (v : JValue)
    (h : d.lookup k = none) :
    (d ++ [(k, v)]).lookup k = some v := by
  induction d with
  | nil => simp [List.lookup]
  | cons hd tl ih =>
    by_cases hk : hd.1 = k
    · exfalso
      simp [List.lookup, hk] at h
    · have hbeq : (k == hd.1) = false := by
        simp only [beq_eq_false_iff_ne, ne_eq]
        exact fun h => hk h.symm
      simp only [List.cons_append, List.lookup, hbeq]
      apply ih
      simpa [List.lookup, hbeq] using h

theorem lookup_dictInsert (d : JDict) (k : String) (v : JValue) :
    (dictInsert d k v).lookup k = some v := by
  unfold dictInsert
  split
  · next hsome => exact lookup_map_replace d k v hsome
  · next hnone =>
    apply lookup_append_single
    cases hcase : d.lookup k with
    | none => rfl
    | some w => exact absurd (by rw [hcase]; rfl) hnone

/-! ## Claims about the Flat Store (`metadata_storage.py`) -/

/-- C5: loading a Flat Store whose on-disk content is the legacy sequence
of single-key mappings merges it in order with last-write-wins and
persists the merged mapping back: from
`[{"a.pdf": X}, {"b.pdf": Y}, {"a.pdf": Z}]` the store yields
`get_document("a.pdf") = Z`, `get_document("b.pdf") = Y`, `count() = 2`,
and the merged mapping is what is written back to disk; in general the
last occurrence of a filename in the legacy sequence is the value the
merged mapping holds for it. -/
theorem flat_store_legacy_migration_last_write_wins :
    (∀ X Y Z : JValue,
      MetadataStorage.get_metadata (some (JValue.arr
        [JValue.obj [("a.pdf", X)], JValue.obj [("b.pdf", Y)],
         JValue.obj [("a.pdf", Z)]])) "a.pdf" = some Z ∧
      MetadataStorage.get_metadata (some (JValue.arr
        [JValue.obj [("a.pdf", X)], JValue.obj [("b.pdf", Y)],
         JValue.obj [("a.pdf", Z)]])) "b.pdf" = some Y ∧
      MetadataStorage.get_count (some (JValue.arr
        [JValue.obj [("a.pdf", X)], JValue.obj [("b.pdf", Y)],
         JValue.obj [("a.pdf", Z)]])) = 2 ∧
      (MetadataStorage.load_data (some (JValue.arr
        [JValue.obj [("a.pdf", X)], JValue.obj [("b.pdf", Y)],
         JValue.obj [("a.pdf", Z)]]))).2 =
        some (JValue.obj [("a.pdf", Z), ("b.pdf", Y)])) ∧
    (∀ (earlier : List JValue) (f : String) (v : JValue),
      (MetadataStorage.migrate_from_array
        (earlier ++ [JValue.obj [(f, v)]])).lookup f = some v) := by
  constructor
  · intro X Y Z
    refine ⟨rfl, rfl, rfl, rfl⟩
  · intro earlier f v
    unfold MetadataStorage.migrate_from_array
    rw [List.foldl_append]
    simp only [List.foldl_cons, List.foldl_nil]
    exact lookup_dictInsert _ f v

/-- C6: when the on-disk content is unparseable (`none`) or parses to
neither a mapping nor the legacy sequence, the Flat Store behaves as
empty: `get_count` is 0 and `file_exists` is false for every filename;
every such failure path is caught inside `_load_data` (the embedding is a
total function returning the empty dict), so nothing propagates to the
caller. -/
theorem flat_store_unparseable_treated_as_empty (disk : Option JValue)
    (hobj : ∀ entries, disk ≠ some (JValue.obj entries))
    (harr : ∀ items, disk ≠ some (JValue.arr items)) :
    MetadataStorage.get_count disk = 0 ∧
    ∀ f, MetadataStorage.file_exists disk f = false := by
  match disk with
  | none => exact ⟨rfl, fun f => rfl⟩
  | some (JValue.obj entries) => exact absurd rfl (hobj entries)
  | some (JValue.arr items) => exact absurd rfl (harr items)
  | some (JValue.str s) => exact ⟨rfl, fun f => rfl⟩
  | some (JValue.num n) => exact ⟨rfl, fun f => rfl⟩
  | some (JValue.bool b) => exact ⟨rfl, fun f => rfl⟩
  | some JValue.null => exact ⟨rfl, fun f => rfl⟩

/-- Witness for C6: unparseable content (`none`) at the concrete filename
`"ghost.pdf"`. -/
theorem flat_store_unparseable_witness :
    MetadataStorage.get_count none = 0 ∧
    MetadataStorage.file_exists none "ghost.pdf" = false :=
  ⟨(flat_store_unparseable_treated_as_empty none
      (fun _ h => by cases h) (fun _ h => by cases h)).1,
   (flat_store_unparseable_treated_as_empty none
      (fun _ h => by cases h) (fun _ h => by cases h)).2 "ghost.pdf"⟩

/-- C10: `add_metadata` mutates the caller's `metadata` dictionary before
saving: it appends a `processed_at` entry the caller did not pass in (the
post-call value of the caller's dict is `callerMetadata`), and the record
stored under `filename` is that same mutated dictionary. -/
theorem add_metadata_mutates_caller_metadata (disk : Option JValue)
    (f : String) (md : JDict) (now : String) (saveOk : Bool)
    (h : md.lookup "processed_at" = none) :
    (MetadataStorage.add_metadata disk f md now saveOk).callerMetadata =
      md ++ [("processed_at", JValue.str now)] ∧
    ((MetadataStorage.add_metadata disk f md now saveOk).callerMetadata).lookup
      "processed_at" = some (JValue.str now) ∧
    (saveOk = true →
      MetadataStorage.get_metadata
        (MetadataStorage.add_metadata disk f md now saveOk).disk f =
        some (JValue.obj
          (MetadataStorage.add_metadata disk f md now saveOk).callerMetadata)) := by
  refine ⟨?_, ?_, ?_⟩
  · simp [MetadataStorage.add_metadata, dictInsert, h]
  · exact lookup_dictInsert md "processed_at" (JValue.str now)
  · intro hok
    subst hok
    simp only [MetadataStorage.add_metadata, MetadataStorage.save_data,
      if_pos rfl, MetadataStorage.get_metadata, MetadataStorage.load_data]
    exact lookup_dictInsert _ f _

/-- Witness for C10: a concrete call whose metadata dict lacks
`processed_at` beforehand and contains it afterwards. -/
theorem add_metadata_mutates_caller_metadata_witness :
    ([("title", JValue.str "T")] : JDict).lookup "processed_at" = none ∧
    ((MetadataStorage.add_metadata none "f.pdf" [("title", JValue.str "T")]
        "2024-01-01T00:00:00" true).callerMetadata).lookup "processed_at" =
      some (JValue.str "2024-01-01T00:00:00") :=
  ⟨rfl,
   (add_metadata_mutates_caller_metadata none "f.pdf"
      [("title", JValue.str "T")] "2024-01-01T00:00:00" true rfl).2.1⟩

/-! ## Claims about the Relational Store (`database.py`) -/

theorem filename_updateDocRow (row : DocRow) (md : PdfMetadata) (n : Nat) :
    (Database.updateDocRow row md n).filename = row.filename := rfl

theorem map_filename_update (l : List DocRow) (i : Nat) (md : PdfMetadata)
    (n : Nat) :
    ((l.map (fun row =>
        if row.id = i then Database.updateDocRow row md n else row)).map
      DocRow.filename) = l.map DocRow.filename := by
  induction l with
  | nil => rfl
  | cons hd tl ih =>
    simp only [List.map_cons, ih]
    congr 1
    split <;> rfl

/-- `UPDATE` branch of the upsert: the table after the call. -/
theorem docs_add_pdf_document_update (s : DbState) (f : String)
    (md : PdfMetadata) (n : Nat) (ex : DocRow)
    (hfind : Database.findDocByFilename s f = some ex) :
    ((Database.add_pdf_document s f md n true).2).docs =
      s.docs.map (fun row =>
        if row.id = ex.id then Database.updateDocRow row md n else row) := by
  unfold Database.add_pdf_document
  rw [hfind]
  rfl

/-- `INSERT` branch of the upsert: the table after the call. -/
theorem docs_add_pdf_document_insert (s : DbState) (f : String)
    (md : PdfMetadata) (n : Nat)
    (hfind : Database.findDocByFilename s f = none) :
    ((Database.add_pdf_document s f md n true).2).docs =
      s.docs ++ [Database.newDocRow s.nextDocId f md n] := by
  unfold Database.add_pdf_document
  rw [hfind]
  rfl

/-- The document count after an upsert: unchanged when the filename was
already present (`UPDATE` branch), one more when it was absent (`INSERT`
branch). -/
theorem get_pdf_count_add_pdf_document (s : DbState) (f : String)
    (md : PdfMetadata) (n : Nat) :
    Database.get_pdf_count (Database.add_pdf_document s f md n true).2 =
      if Database.pdf_exists s f then Database.get_pdf_count s
      else Database.get_pdf_count s + 1 := by
  unfold Database.pdf_exists Database.get_pdf_count
  cases hfind : Database.findDocByFilename s f with
  | some ex =>
    rw [docs_add_pdf_document_update s f md n ex hfind]
    simp [hfind]
  | none =>
    rw [docs_add_pdf_document_insert s f md n hfind]
    simp [hfind]

/-- After `add_pdf_document s f md n true`, a document named `f` exists. -/
theorem pdf_exists_add_pdf_document (s : DbState) (f : String)
    (md : PdfMetadata) (n : Nat) :
    Database.pdf_exists (Database.add_pdf_document s f md n true).2 f = true := by
  unfold Database.pdf_exists Database.findDocByFilename
  rw [Option.isSome_iff_exists]
  cases hfind : Database.findDocByFilename s f with
  | some ex =>
    have hmem : ex ∈ s.docs := List.mem_of_find?_eq_some hfind
    have hfn : ex.filename = f := by
      have := List.find?_some hfind
      simpa using this
    rw [docs_add_pdf_document_update s f md n ex hfind]
    have hfound : (Database.updateDocRow ex md n) ∈
        (s.docs.map (fun row =>
          if row.id = ex.id then Database.updateDocRow row md n else row)) := by
      have := List.mem_map_of_mem
        (fun row => if row.id = ex.id then Database.updateDocRow row md n
          else row) hmem
      simpa using this
    have hsome : ((s.docs.map (fun row =>
        if row.id = ex.id then Database.updateDocRow row md n else row)).find?
          (fun row => row.filename = f)).isSome := by
      rw [List.find?_isSome]
      exact ⟨_, hfound, by simp [filename_updateDocRow, hfn]⟩
    rwa [Option.isSome_iff_exists] at hsome
  | none =>
    rw [docs_add_pdf_document_insert s f md n hfind]
    have hsome : ((s.docs ++ [Database.newDocRow s.nextDocId f md n]).find?
        (fun row => row.filename = f)).isSome := by
      rw [List.find?_isSome]
      exact ⟨Database.newDocRow s.nextDocId f md n, by simp, by
        simp [Database.newDocRow]⟩
    rwa [Option.isSome_iff_exists] at hsome

/-- Filename uniqueness is preserved by `add_pdf_document`. -/
theorem nodup_filenames_add_pdf_document (s : DbState) (f : String)
    (md : PdfMetadata) (n : Nat)
    (hu : (s.docs.map DocRow.filename).Nodup) :
    (((Database.add_pdf_document s f md n true).2).docs.map
      DocRow.filename).Nodup := by
  cases hfind : Database.findDocByFilename s f with
  | some ex =>
    rw [docs_add_pdf_document_update s f md n ex hfind, map_filename_update]
    exact hu
  | none =>
    have hnot : f ∉ s.docs.map DocRow.filename := by
      intro hmem
      obtain ⟨row, hrow, hfn⟩ := List.mem_map.1 hmem
      have := List.find?_eq_none.1 hfind row hrow
      simp [hfn] at this
    rw [docs_add_pdf_document_insert s f md n hfind, List.map_append]
    refine ((List.perm_append_singleton _ _).nodup_iff).2 ?_
    exact List.nodup_cons.2 ⟨by simpa [Database.newDocRow] using hnot, hu⟩

/-- C1: upserting the same filename twice increases the document count by
at most 1 relative to the state before the first upsert (the second upsert
updates the existing row in place), and filename uniqueness across
documents is preserved by both upserts. -/
theorem upsert_same_filename_twice_bounded (s : DbState) (f : String)
    (md1 md2 : PdfMetadata) (n1 n2 : Nat)
    (hu : (s.docs.map DocRow.filename).Nodup) :
    Database.get_pdf_count
        (Database.add_pdf_document
          (Database.add_pdf_document s f md1 n1 true).2 f md2 n2 true).2 ≤
      Database.get_pdf_count s + 1 ∧
    (((Database.add_pdf_document s f md1 n1 true).2).docs.map
      DocRow.filename).Nodup ∧
    ((((Database.add_pdf_document
        (Database.add_pdf_document s f md1 n1 true).2 f md2 n2
        true).2).docs.map DocRow.filename)).Nodup := by
  have hex : Database.pdf_exists (Database.add_pdf_document s f md1 n1 true).2
      f = true := pdf_exists_add_pdf_document s f md1 n1
  have hcount2 : Database.get_pdf_count
      (Database.add_pdf_document
        (Database.add_pdf_document s f md1 n1 true).2 f md2 n2 true).2 =
      Database.get_pdf_count (Database.add_pdf_document s f md1 n1 true).2 := by
    rw [get_pdf_count_add_pdf_document, hex, if_pos rfl]
  have hcount1 : Database.get_pdf_count
      (Database.add_pdf_document s f md1 n1 true).2 ≤
      Database.get_pdf_count s + 1 := by
    rw [get_pdf_count_add_pdf_document]
    split <;> omega
  have hnd1 := nodup_filenames_add_pdf_document s f md1 n1 hu
  refine ⟨?_, hnd1, ?_⟩
  · omega
  · exact nodup_filenames_add_pdf_document _ f md2 n2 hnd1

/-- Witness for C1: the empty database, filename `"a.pdf"`, two upserts. -/
theorem upsert_same_filename_twice_bounded_witness :
    ((({} : DbState)).docs.map DocRow.filename).Nodup ∧
    Database.get_pdf_count
        (Database.add_pdf_document
          (Database.add_pdf_document {} "a.pdf" {} 1 true).2 "a.pdf" {} 2
          true).2 ≤
      Database.get_pdf_count {} + 1 :=
  ⟨List.nodup_nil,
   (upsert_same_filename_twice_bounded {} "a.pdf" {} {} 1 2 List.nodup_nil).1⟩

/-- C2 (code bug): `delete_pdf` removes only the `pdf_documents` row.
Because the program never issues `PRAGMA foreign_keys = ON`, the declared
`ON DELETE CASCADE` rules are inert: after deleting `"doc.pdf"` the call
returns `true` and the document is gone, but its image and text references
are still stored and still returned by `get_images_by_pdf_id` /
`get_text_by_pdf_id` for the deleted document's id — contradicting both
the claim and the method's own docstring ("Delete a PDF document and all
its related data"). -/
theorem delete_pdf_leaves_references_behind :
    (Database.delete_pdf docWithRefs "doc.pdf").1 = true ∧
    Database.pdf_exists (Database.delete_pdf docWithRefs "doc.pdf").2
      "doc.pdf" = false ∧
    Database.get_images_by_pdf_id (Database.delete_pdf docWithRefs "doc.pdf").2
      1 ≠ [] ∧
    Database.get_text_by_pdf_id (Database.delete_pdf docWithRefs "doc.pdf").2
      1 ≠ none := by
  refine ⟨rfl, rfl, ?_, ?_⟩ <;> decide

/-- C3 counterexample: with N = 1 image reference attached, re-upserting
the same filename and attaching M = 1 new image reference leaves 2 = N + M
references visible, not M = 1; and two successive `add_text` calls for the
same document leave two text reference rows, not at most one. -/
theorem reupsert_accumulates_references :
    (Database.get_images_by_pdf_id docReprocessed 1).length = 2 ∧
    (2 : Nat) ≠ 1 ∧
    ((Database.add_text (Database.add_text docWithRefs 1 "t2.txt" (some 5)
        2).2 1 "t3.txt" (some 6) 3).2.texts.filter
      (fun row => row.pdf_id = 1)).length = 3 := by
  refine ⟨?_, by decide, ?_⟩ <;> decide

/-- C3 amended: the store accumulates references across re-processing —
`add_pdf_document` never touches the `images` table (so prior references
survive a re-upsert), `add_image` appends exactly one new row visible for
its document, and `add_text` appends a row without replacing any prior
text reference for the same document. -/
theorem references_accumulate (s : DbState) (f fn : String)
    (md : PdfMetadata) (now : Nat) (d : Nat) (pg ix : Int)
    (ext : Option String) (wc : Option Int) :
    ((Database.add_pdf_document s f md now true).2).images = s.images ∧
    Database.get_images_by_pdf_id (Database.add_image s d fn pg ix ext now).2
        d =
      Database.get_images_by_pdf_id s d ++
        [{ id := s.nextImageId, pdf_id := d, filename := fn,
           page_number := pg, image_index := ix, file_extension := ext,
           extracted_at := now }] ∧
    ((Database.add_text s d fn wc now).2).texts =
      s.texts ++ [{ id := s.nextTextId, pdf_id := d, filename := fn,
                    word_count := wc, extracted_at := now }] := by
  refine ⟨?_, ?_, rfl⟩
  · unfold Database.add_pdf_document
    cases hfind : Database.findDocByFilename s f <;> rfl
  · simp [Database.add_image, Database.get_images_by_pdf_id,
      List.filter_append]

/-- C4 (code bug): with foreign-key enforcement never enabled, `add_image`
called with a `pdf_id` that matches no document row silently succeeds: it
returns a fresh image id and stores an orphan image reference, instead of
failing — contradicting the referential integrity declared by the schema's
`FOREIGN KEY (pdf_id) REFERENCES pdf_documents (id)` clause. -/
theorem add_image_orphan_insert_succeeds :
    (Database.add_image {} 1 "img.png" 1 0 (some "png") 3).1 = some 1 ∧
    Database.get_images_by_pdf_id
      (Database.add_image {} 1 "img.png" 1 0 (some "png") 3).2 1 ≠ [] ∧
    (({} : DbState)).docs.find? (fun row => row.id = 1) = none := by
  refine ⟨rfl, ?_, rfl⟩
  decide

/-- C7 counterexample: the query behind `list_documents` is `ORDER BY
processed_at DESC` with no secondary key, so ties are *not* broken by
filename ascending.  Upserting `"b.pdf"` then `"a.pdf"` with the same
timestamp yields the order `["b.pdf", "a.pdf"]` although `"a.pdf"`
precedes `"b.pdf"` in ascending filename order. -/
theorem list_documents_no_filename_tiebreak :
    (Database.get_all_pdfs twoDocsSameStamp).map DocRow.filename =
      ["b.pdf", "a.pdf"] ∧
    (Database.get_all_pdfs twoDocsSameStamp).map DocRow.processed_at =
      [5, 5] ∧
    List.Lex (· < ·) "a.pdf".toList "b.pdf".toList := by
  refine ⟨?_, ?_, by decide⟩ <;> decide

/-- C7 amended: `list_documents` returns all documents sorted by
`processed_at` descending (a permutation of the table), but the relative
order of documents sharing a timestamp is whatever the backend produces
(table order in this embedding) — no filename tie-break is applied. -/
theorem get_all_pdfs_sorted_desc (s : DbState) :
    List.Sorted Database.processedAtDesc (Database.get_all_pdfs s) ∧
    (Database.get_all_pdfs s).Perm s.docs :=
  ⟨List.sorted_insertionSort Database.processedAtDesc s.docs,
   List.perm_insertionSort Database.processedAtDesc s.docs⟩

/-- C8 counterexample: when the backing storage cannot be written, no
`PersistenceError` (or any error) reaches the caller.  The Flat Store's
`add_metadata` still returns `True` — the failed `_save_data` is swallowed
and the on-disk mapping keeps its old content — and the Relational Store's
`add_pdf_document` rolls back and returns `None` instead of raising. -/
theorem write_failure_silently_swallowed :
    (MetadataStorage.add_metadata (some (JValue.obj [])) "f.pdf" []
      "t0" false).ret = true ∧
    (MetadataStorage.add_metadata (some (JValue.obj [])) "f.pdf" []
      "t0" false).disk = some (JValue.obj []) ∧
    (Database.add_pdf_document {} "f.pdf" {} 1 false).1 = none :=
  ⟨rfl, rfl, rfl⟩

/-- C8 amended: on a write failure, `upsert_document` does not raise.  The
Relational Store returns `None` with the state rolled back unchanged (the
transaction is atomic: nothing partially commits), and the Flat Store's
`add_metadata` swallows the failed save, returns `True`, and leaves the
previous on-disk mapping in place. -/
theorem write_failure_behavior (s : DbState) (f : String) (md : PdfMetadata)
    (n : Nat) (entries : JDict) (g : String) (m : JDict) (now : String) :
    Database.add_pdf_document s f md n false = (none, s) ∧
    (MetadataStorage.add_metadata (some (JValue.obj entries)) g m now
      false).ret = true ∧
    (MetadataStorage.add_metadata (some (JValue.obj entries)) g m now
      false).disk = some (JValue.obj entries) :=
  ⟨rfl, rfl, rfl⟩

/-- C9 counterexample: `generate_hex_id` computes
`secrets.token_hex(length // 2)`, so an odd requested length is silently
truncated: requesting 9 characters yields a token of 8. -/
theorem generate_hex_id_truncates_odd_length :
    (generate_hex_id (fun _ => (0 : Fin 256)) 9).length = 8 ∧
    (8 : Nat) ≠ 9 :=
  ⟨rfl, by decide⟩

theorem flatMap_byteToHexChars_length (rnd : Nat → Fin 256) (k : Nat) :
    ((List.range k).flatMap (fun i => byteToHexChars (rnd i))).length =
      2 * k := by
  induction k with
  | zero => rfl
  | succ k ih =>
    rw [List.range_succ, List.flatMap_append, List.length_append, ih]
    simp [byteToHexChars]
    omega

theorem isLowerHexChar_hexDigit (n : Fin 16) :
    isLowerHexChar (hexDigit n) = true := by
  fin_cases n <;> decide

/-- C9 amended: `generate_hex_id` returns a token of exactly `2 * (n / 2)`
lowercase hexadecimal characters for requested length `n` — exactly `n`
characters whenever `n` is even (in particular for the default 8), one
character short for odd `n`. -/
theorem generate_hex_id_length_charset (rnd : Nat → Fin 256) (n : Nat) :
    (generate_hex_id rnd n).length = 2 * (n / 2) ∧
    (n % 2 = 0 → (generate_hex_id rnd n).length = n) ∧
    ∀ c ∈ (generate_hex_id rnd n).data, isLowerHexChar c = true := by
  have hlen : (generate_hex_id rnd n).length = 2 * (n / 2) :=
    flatMap_byteToHexChars_length rnd (n / 2)
  refine ⟨hlen, fun heven => by omega, ?_⟩
  intro c hc
  have hc' : c ∈ (List.range (n / 2)).flatMap
      (fun i => byteToHexChars (rnd i)) := hc
  obtain ⟨i, _, hmem⟩ := List.mem_flatMap.1 hc'
  have : c = hexDigit ⟨(rnd i).1 / 16, by omega⟩ ∨
      c = hexDigit ⟨(rnd i).1 % 16, by omega⟩ := by
    simpa [byteToHexChars] using hmem
  rcases this with h | h <;> rw [h] <;> exact isLowerHexChar_hexDigit _

/-- Witness for the amended C9 statement: at the default length 8 (even),
the generated token has exactly 8 characters. -/
theorem generate_hex_id_length_charset_witness :
    (8 : Nat) % 2 = 0 ∧
    (generate_hex_id (fun _ => (0 : Fin 256)) 8).length = 8 :=
  ⟨by decide,
   (generate_hex_id_length_charset (fun _ => (0 : Fin 256)) 8).2.1
     (by decide)⟩
